import Mathlib

/-!
Verification development for the log15 structured-logging core
(src/logger.go, src/root.go). The Go code is shallowly embedded:
Go slices of interface values become lists over an explicit `Value`
type, the heap of swapHandler cells becomes an explicit `Heap` state,
and fallible operations return `Option` or `Except`.
-/

namespace Log15

/-! ## Keys (src/logger.go lines 10-13) -/

def timeKey : String := "t"
def lvlKey : String := "lvl"
def msgKey : String := "msg"
def errorKey : String := "LOG15_ERROR"

/-! ## Levels (src/logger.go lines 15-62)

Go declares `type Lvl int` with iota constants LvlCrit = 0 .. LvlDebug = 4,
so Lvl is embedded as Int, not as a five-element enumeration. -/

abbrev Lvl := Int

def LvlCrit : Lvl := 0
def LvlError : Lvl := 1
def LvlWarn : Lvl := 2
def LvlInfo : Lvl := 3
def LvlDebug : Lvl := 4

/-- The five predefined levels, in ordinal order. -/
def definedLvls : List Lvl := [LvlCrit, LvlError, LvlWarn, LvlInfo, LvlDebug]

/-- Embedding of `func (l Lvl) String() string` (src/logger.go lines 28-43).
The default arm of the Go switch panics with "bad level"; that arm is
modelled as `none`. -/
def Lvl.toString (l : Lvl) : Option String :=
  if l = LvlDebug then some "dbug"
  else if l = LvlInfo then some "info"
  else if l = LvlWarn then some "warn"
  else if l = LvlError then some "eror"
  else if l = LvlCrit then some "crit"
  else none

/-- Embedding of `func LvlFromString(lvlString string) (Lvl, error)`
(src/logger.go lines 47-62). The Go error return is modelled as
`Except String Lvl`; the Go code returns LvlDebug alongside the error,
which the Except model drops together with the failure. -/
def LvlFromString (lvlString : String) : Except String Lvl :=
  if lvlString = "debug" ∨ lvlString = "dbug" then Except.ok LvlDebug
  else if lvlString = "info" then Except.ok LvlInfo
  else if lvlString = "warn" then Except.ok LvlWarn
  else if lvlString = "error" ∨ lvlString = "eror" then Except.ok LvlError
  else if lvlString = "crit" then Except.ok LvlCrit
  else Except.error ("Unknown level: " ++ lvlString)

/-! ## Values

Go context slices have type `[]interface\x7b\x7d`. The embedding uses a
small universe of values; `vctx` is the Ctx map-convenience type
(a map from string to value, modelled as an association list because
Go map iteration order is unspecified). -/

inductive Value where
  | vnil : Value
  | vbool (b : Bool) : Value
  | vstr (s : String) : Value
  | vint (n : Int) : Value
  | vctx (entries : List (String × Value)) : Value

/-- Embedding of `func (c Ctx) toArray()` (src/logger.go lines 262-273):
flatten the map into alternating key/value entries, in iteration
order. -/
def Ctx.toArray : List (String × Value) → List Value
  | [] => []
  | (k, v) :: rest => Value.vstr k :: v :: Ctx.toArray rest

/-- The first half of `normalize` (src/logger.go lines 226-230): if the
caller passed exactly one Ctx object, expand it. Go reassigns the ctx
variable in place; the embedding names the intermediate value. -/
def expandCtx (ctx : List Value) : List Value :=
  match ctx with
  | [Value.vctx m] => Ctx.toArray m
  | _ => ctx

/-- Embedding of `func normalize(ctx []interface\x7b\x7d)`
(src/logger.go lines 224-242): expand a single Ctx argument, then, if
the length is odd, append the nil/errorKey/diagnostic triple. -/
def normalize (ctx : List Value) : List Value :=
  if (expandCtx ctx).length % 2 ≠ 0 then
    expandCtx ctx ++ [Value.vnil, Value.vstr errorKey,
      Value.vstr "Normalized odd number of arguments by adding nil"]
  else
    expandCtx ctx

/-- Embedding of `func newContext(prefix, suffix)` (src/logger.go lines
142-148): the make/copy/copy sequence builds exactly the concatenation
of the prefix with the normalized suffix. -/
def newContext (pre : List Value) (suffix : List Value) : List Value :=
  pre ++ normalize suffix

/-! ## Records (src/logger.go lines 64-79) -/

structure RecordKeyNames where
  time : String
  msg : String
  lvl : String

/-- `Record`; wall-clock time is an abstract Nat supplied by the caller
of `write`, and `call` records the fixed skip depth of the
`stack.Caller(2)` capture. -/
structure Record where
  time : Nat
  lvl : Lvl
  msg : String
  ctx : List Value
  call : Nat
  keyNames : RecordKeyNames

/-! ## Handlers and the swap-handler heap

swapHandler itself lives in handler.go, which is not under src/.
Modelled from the spec (section 4.4): the concurrency-safe handler
indirection holds the currently installed Handler; swap replaces it,
log forwards to the currently installed handler and is a silent no-op
while no handler has ever been installed. Because a swapHandler is
itself a Handler (src/logger.go line 138 passes `l.h` to SetHandler),
a Handler value is either a concrete sink or a pointer to a swapHandler
cell, and the cells live in an explicit heap. -/

inductive Handler where
  | sink (id : Nat)
  | swapRef (c : Nat)
deriving DecidableEq

/-- The heap of swapHandler cells. Cell content `none` means no handler
was ever installed (the Go zero value of swapHandler). -/
structure Heap where
  cells : List (Option Handler)
deriving DecidableEq

def Heap.get (hp : Heap) (c : Nat) : Option Handler :=
  match hp.cells[c]? with
  | some cell => cell
  | none => none

/-- Modelled from the spec (section 4.4): swap installs the new handler
as the value all subsequent get/log calls observe. -/
def Heap.swap (hp : Heap) (c : Nat) (h : Handler) : Heap :=
  ⟨hp.cells.set c (some h)⟩

/-- `new(swapHandler)`: allocate a fresh cell with nothing installed. -/
def Heap.alloc (hp : Heap) : Heap × Nat :=
  (⟨hp.cells ++ [none]⟩, hp.cells.length)

/-- Modelled from the spec (section 4.4): log forwards to the currently
installed handler; forwarding through a swapHandler installed as a
Handler recurses, so resolution is fuel-bounded. Returns the id of the
concrete sink the record is delivered to, or `none` when it is
dropped. -/
def resolveSink (hp : Heap) : Nat → Handler → Option Nat
  | _, Handler.sink id => some id
  | 0, Handler.swapRef _ => none
  | fuel + 1, Handler.swapRef c =>
    match hp.get c with
    | some h => resolveSink hp fuel h
    | none => none

/-! ## Logger (src/logger.go lines 110-222) -/

/-- `type logger struct` with fields maxLvl, ctx and h; the h field is
a pointer into the heap of swapHandler cells. -/
structure logger where
  maxLvl : Lvl
  ctx : List Value
  h : Nat

/-- Embedding of `func (l *logger) write` (src/logger.go lines 116-131):
the level gate admits the record exactly when `lvl <= l.maxLvl`; the
result is the Record handed to the handler indirection, or `none` when
the gate rejects and nothing is handed over. -/
def logger.write (l : logger) (msg : String) (lvl : Lvl) (ctx : List Value)
    (now : Nat) : Option Record :=
  if lvl ≤ l.maxLvl then
    some { time := now, lvl := lvl, msg := msg,
           ctx := newContext l.ctx ctx, call := 2,
           keyNames := { time := timeKey, msg := msgKey, lvl := lvlKey } }
  else
    none

/-- Embedding of `func (l *logger) SetHandler` (src/logger.go lines
216-218): swap the handler held by the indirection cell of this
logger. -/
def logger.SetHandler (hp : Heap) (l : logger) (h : Handler) : Heap :=
  hp.swap l.h h

/-- Embedding of `func (l *logger) GetHandler` (src/logger.go 212-214). -/
def logger.GetHandler (hp : Heap) (l : logger) : Option Handler :=
  hp.get l.h

/-- Embedding of `func (l *logger) SetLevel` (src/logger.go 220-222). -/
def logger.SetLevel (l : logger) (maxLvl : Lvl) : logger :=
  { l with maxLvl := maxLvl }

/-- Embedding of `func (l *logger) New` (src/logger.go lines 133-140):
a zero level argument is replaced by the maxLvl of the parent, the
child context is `newContext(l.ctx, ctx)`, a fresh swapHandler is
allocated, and the own swapHandler of the parent is installed into it
as a Handler. -/
def logger.New (hp : Heap) (l : logger) (lvl : Lvl) (ctx : List Value) :
    Heap × logger :=
  let lvl2 := if lvl = 0 then l.maxLvl else lvl
  let alloc := hp.alloc
  let child : logger := { maxLvl := lvl2, ctx := newContext l.ctx ctx, h := alloc.2 }
  let hp2 := logger.SetHandler alloc.1 child (Handler.swapRef l.h)
  (hp2, child)

/-- The sink a write by logger l is delivered to under heap hp:
`write` hands the record to `l.h.Log`, i.e. resolution starts at the
own swapHandler cell of this logger. -/
def deliveredTo (hp : Heap) (l : logger) (fuel : Nat) : Option Nat :=
  resolveSink hp fuel (Handler.swapRef l.h)

/-! ## Panic-equivalent methods (src/logger.go lines 196-210,
src/root.go lines 113-123)

The observable effect sequence of a panic-equivalent call: the record
handed to the handler (via the gated write), then a sleep of sleepNs
nanoseconds (Go time.Sleep takes nanoseconds, so the untyped constant
10 in `time.Sleep(10)` is 10ns), then a Go panic carrying the rendered
message. -/

structure PanicResult where
  written : Option Record
  sleepNs : Nat
  panicMsg : String

/-- Embedding of `func (l *logger) Panic` (src/logger.go lines 197-202):
write at LvlCrit, `time.Sleep(10)`, then `panic(fmt.Sprint(msg))`. -/
def logger.Panic (l : logger) (msg : String) (ctx : List Value) (now : Nat) :
    PanicResult :=
  { written := logger.write l msg LvlCrit ctx now
    sleepNs := 10
    panicMsg := msg }

/-- Embedding of `func (l *logger) Panicf` (src/logger.go lines
204-210); the message is taken already rendered, the context is
empty. -/
def logger.Panicf (l : logger) (msg : String) (now : Nat) : PanicResult :=
  { written := logger.write l msg LvlCrit [] now
    sleepNs := 10
    panicMsg := msg }

/-- Embedding of the package-level `func Panic` (src/root.go lines
114-117): write at LvlCrit on the root logger then panic immediately,
with no sleep at all. -/
def rootPanic (root : logger) (msg : String) (ctx : List Value) (now : Nat) :
    PanicResult :=
  { written := logger.write root msg LvlCrit ctx now
    sleepNs := 0
    panicMsg := msg }

/-- Embedding of the package-level `func Panicf` (src/root.go lines
119-123): no sleep either. -/
def rootPanicf (root : logger) (msg : String) (now : Nat) : PanicResult :=
  { written := logger.write root msg LvlCrit [] now
    sleepNs := 0
    panicMsg := msg }

/-- Adjacent (key, value) pairs of a flat context sequence. -/
def pairsOf : List Value → List (Value × Value)
  | k :: v :: rest => (k, v) :: pairsOf rest
  | _ => []

/-! ## Concrete example states used by several theorems below -/

def exHeap : Heap := ⟨[some (Handler.sink 0)]⟩
def exParent : logger := { maxLvl := LvlDebug, ctx := [], h := 0 }

def c2New : Heap × logger := logger.New exHeap exParent 0 []
def c2Swapped : Heap := logger.SetHandler c2New.1 exParent (Handler.sink 1)

def c7A : Heap × logger :=
  logger.New exHeap exParent 0 [Value.vctx [("a", Value.vint 1)]]
def c7AB : Heap × logger :=
  logger.New c7A.1 c7A.2 0 [Value.vctx [("b", Value.vint 2)]]

/-! ## Helper lemmas -/

theorem set_append_of_lt {α : Type} (B : List α) (v : α) (A : List α) (i : Nat)
    (h : i < A.length) : (A ++ B).set i v = A.set i v ++ B := by
  induction A generalizing i with
  | nil => simp at h
  | cons a as ih =>
    cases i with
    | zero => rfl
    | succ n =>
      show a :: (as ++ B).set n v = a :: (as.set n v ++ B)
      rw [ih n (by simpa using h)]

theorem set_append_at_length {α : Type} (A : List α) (x v : α) :
    (A ++ [x]).set A.length v = A ++ [v] := by
  induction A with
  | nil => rfl
  | cons a as ih =>
    show a :: (as ++ [x]).set as.length v = a :: (as ++ [v])
    rw [ih]

/-- After logger.New, the heap gained exactly one fresh cell holding the
parent swapHandler as the installed Handler, the child points at that
fresh cell, and the child fields are as computed by the source. -/
theorem New_shape (hp : Heap) (l : logger) (lvl : Lvl) (ctx : List Value) :
    (logger.New hp l lvl ctx).1.cells = hp.cells ++ [some (Handler.swapRef l.h)] ∧
    (logger.New hp l lvl ctx).2.h = hp.cells.length ∧
    (logger.New hp l lvl ctx).2.ctx = newContext l.ctx ctx ∧
    (logger.New hp l lvl ctx).2.maxLvl = (if lvl = 0 then l.maxLvl else lvl) := by
  refine ⟨?_, rfl, rfl, rfl⟩
  show ((hp.cells ++ [none]).set hp.cells.length (some (Handler.swapRef l.h)))
      = hp.cells ++ [some (Handler.swapRef l.h)]
  exact set_append_at_length hp.cells none (some (Handler.swapRef l.h))

theorem expandCtx_eq_self (ctx : List Value) (hnotmap : ∀ m, ctx ≠ [Value.vctx m]) :
    expandCtx ctx = ctx := by
  unfold expandCtx
  split
  · rename_i hB hC
    exact absurd rfl (hnotmap hC)
  · rfl

theorem toArray_length (m : List (String × Value)) :
    (Ctx.toArray m).length = 2 * m.length := by
  induction m with
  | nil => rfl
  | cons kv rest ih =>
    obtain ⟨k, v⟩ := kv
    simp only [Ctx.toArray, List.length_cons, ih]
    omega

theorem pairsOf_toArray (m : List (String × Value)) :
    pairsOf (Ctx.toArray m) = m.map (fun kv => (Value.vstr kv.1, kv.2)) := by
  induction m with
  | nil => rfl
  | cons kv rest ih =>
    obtain ⟨k, v⟩ := kv
    simp only [Ctx.toArray, pairsOf, ih, List.map_cons]

theorem normalize_length_even (ctx : List Value) :
    (normalize ctx).length % 2 = 0 := by
  unfold normalize
  split
  · rename_i h
    simp only [List.length_append, List.length_cons, List.length_nil]
    omega
  · omega

/-! ## Claim theorems -/

/-- Claim C1: for every logger and every write call at level lvl, a
Record is constructed and handed to the handler indirection if and only
if the ordinal of lvl is at most the maxLevel ordinal of the logger;
when the gate rejects, the write returns immediately with nothing
handed over, and an emitted record carries exactly the given level,
message, combined context and timestamp. -/
theorem C1_write_gate (l : logger) (msg : String) (lvl : Lvl)
    (ctx : List Value) (now : Nat) :
    ((logger.write l msg lvl ctx now).isSome ↔ lvl ≤ l.maxLvl) ∧
    (l.maxLvl < lvl → logger.write l msg lvl ctx now = none) ∧
    (∀ r, logger.write l msg lvl ctx now = some r →
      r.lvl = lvl ∧ r.msg = msg ∧ r.ctx = newContext l.ctx ctx ∧ r.time = now) := by
  unfold logger.write
  refine ⟨?_, ?_, ?_⟩
  · split
    · rename_i h; simpa using h
    · rename_i h; simpa using h
  · intro hgt
    rw [if_neg (Int.not_le.mpr hgt)]
  · intro r hr
    split at hr
    · cases hr; exact ⟨rfl, rfl, rfl, rfl⟩
    · cases hr

theorem C1_write_gate_witness :
    logger.write { maxLvl := LvlWarn, ctx := [], h := 0 } "m" LvlInfo [] 0 = none :=
  (C1_write_gate { maxLvl := LvlWarn, ctx := [], h := 0 } "m" LvlInfo [] 0).2.1
    (by decide)

/-- Claim C2, counterexample: the claim says swapping the parent
handler after a child exists does not change where subsequent child
writes are delivered. In the code, logger.New installs the parent
swapHandler itself into the fresh child cell, so the swap does
propagate: before the parent swap the child write resolves to sink 0,
after the parent swap it resolves to sink 1. -/
theorem C2_counterexample :
    deliveredTo c2New.1 c2New.2 2 = some 0 ∧
    deliveredTo c2Swapped c2New.2 2 = some 1 ∧
    deliveredTo c2Swapped c2New.2 2 ≠ deliveredTo c2New.1 c2New.2 2 := by
  refine ⟨rfl, rfl, ?_⟩
  decide

/-- Claim C2, amended: for every parent logger with a valid indirection
cell, swapping the parent handler to a sink after a child was created
by New redirects subsequent child writes to that sink, because the
child indirection is initialized with the parent indirection object
itself; the child becomes independent only once its own SetHandler is
called with some other handler. -/
theorem C2_parent_swap_propagates (hp : Heap) (par : logger) (lvl : Lvl)
    (ctx : List Value) (s : Nat) (hvalid : par.h < hp.cells.length) :
    deliveredTo (logger.SetHandler (logger.New hp par lvl ctx).1 par (Handler.sink s))
      (logger.New hp par lvl ctx).2 2 = some s := by
  obtain ⟨hcells, hchild, -, -⟩ := New_shape hp par lvl ctx
  unfold logger.SetHandler Heap.swap deliveredTo
  rw [hcells, hchild]
  rw [set_append_of_lt _ _ _ _ hvalid]
  show resolveSink _ 2 (Handler.swapRef hp.cells.length) = some s
  unfold resolveSink
  have hget1 : Heap.get
      ⟨hp.cells.set par.h (some (Handler.sink s)) ++ [some (Handler.swapRef par.h)]⟩
      hp.cells.length = some (Handler.swapRef par.h) := by
    unfold Heap.get
    have hlen : (hp.cells.set par.h (some (Handler.sink s))).length = hp.cells.length :=
      List.length_set _ _ _
    rw [show hp.cells.length
        = (hp.cells.set par.h (some (Handler.sink s))).length from hlen.symm]
    rw [List.getElem?_concat_length]
  rw [hget1]
  unfold resolveSink
  have hget2 : Heap.get
      ⟨hp.cells.set par.h (some (Handler.sink s)) ++ [some (Handler.swapRef par.h)]⟩
      par.h = some (Handler.sink s) := by
    unfold Heap.get
    rw [List.getElem?_append_left (by simpa using hvalid)]
    rw [List.getElem?_set_eq_of_lt _ hvalid]
  rw [hget2]
  rfl

theorem C2_parent_swap_propagates_witness :
    deliveredTo
      (logger.SetHandler (logger.New exHeap exParent 0 []).1 exParent (Handler.sink 5))
      (logger.New exHeap exParent 0 []).2 2 = some 5 :=
  C2_parent_swap_propagates exHeap exParent 0 [] 5 (by decide)

/-- Claim C3: the write-then-abort sequencing holds (the single
Critical record is handed to the handler before the panic), but the
delay is not on the order of 10ms: the Logger methods execute
time.Sleep(10), i.e. 10 nanoseconds, contradicting the source comment
saying 10 ms, and the package-level Panic and Panicf have no sleep at
all. -/
theorem C3_panic_effects :
    (logger.Panic exParent "boom" [] 7).written.map Record.lvl = some LvlCrit ∧
    (logger.Panic exParent "boom" [] 7).sleepNs = 10 ∧
    (logger.Panicf exParent "boom" 7).sleepNs = 10 ∧
    (rootPanic exParent "boom" [] 7).sleepNs = 0 ∧
    (rootPanicf exParent "boom" 7).sleepNs = 0 ∧
    (logger.Panic exParent "boom" [] 7).panicMsg = "boom" := by
  exact ⟨rfl, rfl, rfl, rfl, rfl, rfl⟩

/-- Claim C4, counterexample: supplying the defined level LvlCrit
explicitly to New does not give the child level LvlCrit: because
LvlCrit = 0 and New treats a zero level argument as "not supplied",
the child inherits the parent level (here LvlDebug) instead. -/
theorem C4_counterexample :
    (logger.New exHeap exParent LvlCrit []).2.maxLvl = LvlDebug ∧
    LvlDebug ≠ LvlCrit := by
  exact ⟨rfl, by decide⟩

/-- Claim C4, amended: a child created by New has maxLevel equal to the
explicitly supplied level whenever that level is nonzero (so for the
four levels Error, Warn, Info, Debug), while a supplied level of 0,
which is exactly LvlCrit, acts as "no level supplied" and the child
inherits the parent maxLevel; the child level is a copy, and SetLevel
replaces only the maxLvl field, leaving context and handler cell
untouched. -/
theorem C4_child_level (hp : Heap) (l : logger) (lvl : Lvl) (ctx : List Value) :
    (lvl ≠ 0 → (logger.New hp l lvl ctx).2.maxLvl = lvl) ∧
    (lvl = 0 → (logger.New hp l lvl ctx).2.maxLvl = l.maxLvl) ∧
    (∀ x : Lvl, (logger.SetLevel (logger.New hp l lvl ctx).2 x).maxLvl = x ∧
      (logger.SetLevel (logger.New hp l lvl ctx).2 x).ctx
        = (logger.New hp l lvl ctx).2.ctx ∧
      (logger.SetLevel (logger.New hp l lvl ctx).2 x).h
        = (logger.New hp l lvl ctx).2.h) := by
  refine ⟨?_, ?_, fun x => ⟨rfl, rfl, rfl⟩⟩
  · intro hne
    show (if lvl = 0 then l.maxLvl else lvl) = lvl
    rw [if_neg hne]
  · intro h0
    show (if lvl = 0 then l.maxLvl else lvl) = l.maxLvl
    rw [if_pos h0]

theorem C4_child_level_witness :
    (logger.New exHeap exParent LvlWarn []).2.maxLvl = LvlWarn :=
  (C4_child_level exHeap exParent LvlWarn []).1 (by decide)

/-- Claim C5: normalizing an odd-length context of length 2n+1 that is
not a single Ctx argument appends exactly the triple nil, errorKey,
"Normalized odd number of arguments by adding nil", yielding length
2n+4 with the input as a preserved front segment. -/
theorem C5_normalize_odd (ctx : List Value) (n : Nat)
    (hlen : ctx.length = 2 * n + 1)
    (hnotmap : ∀ m, ctx ≠ [Value.vctx m]) :
    normalize ctx = ctx ++ [Value.vnil, Value.vstr errorKey,
      Value.vstr "Normalized odd number of arguments by adding nil"] ∧
    (normalize ctx).length = 2 * n + 4 := by
  have hexp : expandCtx ctx = ctx := expandCtx_eq_self ctx hnotmap
  have hodd : (expandCtx ctx).length % 2 ≠ 0 := by
    rw [hexp, hlen]; omega
  have h1 : normalize ctx = ctx ++ [Value.vnil, Value.vstr errorKey,
      Value.vstr "Normalized odd number of arguments by adding nil"] := by
    unfold normalize
    rw [if_pos hodd, hexp]
  refine ⟨h1, ?_⟩
  rw [h1]
  simp only [List.length_append, List.length_cons, List.length_nil, hlen]

theorem C5_normalize_odd_witness :
    normalize [Value.vstr "k"] = [Value.vstr "k", Value.vnil, Value.vstr errorKey,
      Value.vstr "Normalized odd number of arguments by adding nil"] :=
  (C5_normalize_odd [Value.vstr "k"] 0 rfl
    (by intro m hm; simp at hm)).1

/-- Claim C6: normalizing an input consisting of exactly one Ctx value
with k entries yields the flat alternating sequence of exactly those
key/value pairs, of length 2k, in the (unspecified) map iteration
order. -/
theorem C6_normalize_ctx_map (m : List (String × Value)) :
    normalize [Value.vctx m] = Ctx.toArray m ∧
    (normalize [Value.vctx m]).length = 2 * m.length ∧
    pairsOf (normalize [Value.vctx m]) = m.map (fun kv => (Value.vstr kv.1, kv.2)) := by
  have hexp : expandCtx [Value.vctx m] = Ctx.toArray m := rfl
  have heven : (expandCtx [Value.vctx m]).length % 2 = 0 := by
    rw [hexp, toArray_length]; omega
  have hnorm : normalize [Value.vctx m] = Ctx.toArray m := by
    unfold normalize
    rw [if_neg (by omega), hexp]
  exact ⟨hnorm, by rw [hnorm, toArray_length], by rw [hnorm, pairsOf_toArray]⟩

/-- Claim C7: a child created by New stores exactly the parent context
concatenated with the normalization of the supplied context; deriving
twice, first with the single-pair map a maps-to 1 and then with b
maps-to 2, yields the stored context [a, 1, b, 2]. -/
theorem C7_child_context (hp : Heap) (l : logger) (lvl : Lvl) (ctx : List Value) :
    (logger.New hp l lvl ctx).2.ctx = l.ctx ++ normalize ctx ∧
    c7AB.2.ctx = [Value.vstr "a", Value.vint 1, Value.vstr "b", Value.vint 2] := by
  exact ⟨rfl, rfl⟩

/-- Claim C8: for each of the five defined levels, parsing the string
produced by the level-to-string conversion returns the same level; the
long aliases error and debug parse to LvlError and LvlDebug; and
parsing fails exactly on strings matching none of the seven recognized
names. -/
theorem C8_level_roundtrip :
    (∀ l ∈ definedLvls, ∃ s, Lvl.toString l = some s ∧ LvlFromString s = Except.ok l) ∧
    LvlFromString "error" = Except.ok LvlError ∧
    LvlFromString "debug" = Except.ok LvlDebug ∧
    (∀ s, (∃ e, LvlFromString s = Except.error e) ↔
      s ∉ ["crit", "eror", "error", "warn", "info", "dbug", "debug"]) := by
  refine ⟨?_, rfl, rfl, ?_⟩
  · intro l hl
    simp only [definedLvls, List.mem_cons, List.not_mem_nil, or_false] at hl
    rcases hl with rfl | rfl | rfl | rfl | rfl
    · exact ⟨"crit", rfl, rfl⟩
    · exact ⟨"eror", rfl, rfl⟩
    · exact ⟨"warn", rfl, rfl⟩
    · exact ⟨"info", rfl, rfl⟩
    · exact ⟨"dbug", rfl, rfl⟩
  · intro s
    unfold LvlFromString
    split
    · rename_i h
      rcases h with rfl | rfl <;> simp
    · split
      · rename_i h; subst h; simp
      · split
        · rename_i h; subst h; simp
        · split
          · rename_i h
            rcases h with rfl | rfl <;> simp
          · split
            · rename_i h; subst h; simp
            · rename_i h1 h2 h3 h4 h5
              rw [not_or] at h1 h4
              simp [h1.1, h1.2, h2, h3, h4.1, h4.2, h5]

theorem C8_level_roundtrip_witness :
    ∃ s, Lvl.toString LvlWarn = some s ∧ LvlFromString s = Except.ok LvlWarn :=
  C8_level_roundtrip.1 LvlWarn (by decide)

/-- Claim C9: normalization always yields an even-length sequence, so
the context built by newContext from an even prefix is even, the
stored context of a child derived from a logger with even context is
even, and the context of every Record emitted by write from such a
logger is even. -/
theorem C9_context_even (ctx suffix pre : List Value) (l : logger)
    (msg : String) (lvl : Lvl) (now : Nat) (hp : Heap)
    (hpre : pre.length % 2 = 0) (hctx : l.ctx.length % 2 = 0) :
    (normalize ctx).length % 2 = 0 ∧
    (newContext pre suffix).length % 2 = 0 ∧
    ((logger.New hp l lvl ctx).2.ctx.length % 2 = 0) ∧
    (∀ r, logger.write l msg lvl ctx now = some r → r.ctx.length % 2 = 0) := by
  refine ⟨normalize_length_even ctx, ?_, ?_, ?_⟩
  · unfold newContext
    simp only [List.length_append]
    have := normalize_length_even suffix
    omega
  · show (newContext l.ctx ctx).length % 2 = 0
    unfold newContext
    simp only [List.length_append]
    have := normalize_length_even ctx
    omega
  · intro r hr
    unfold logger.write at hr
    split at hr
    · cases hr
      show (newContext l.ctx ctx).length % 2 = 0
      unfold newContext
      simp only [List.length_append]
      have := normalize_length_even ctx
      omega
    · cases hr

theorem C9_context_even_witness :
    (normalize [Value.vstr "k"]).length % 2 = 0 :=
  (C9_context_even [Value.vstr "k"] [] [] exParent "m" LvlInfo 0 exHeap
    (by decide) (by decide)).1

/-- Claim C10: for every logger whose maxLevel is one of the five
defined levels, a write at Critical level passes the level gate and is
handed over, because LvlCrit has the smallest ordinal; and no SetLevel
call with a defined level can make a Critical write be discarded. -/
theorem C10_crit_never_filtered (l : logger) (msg : String) (ctx : List Value)
    (now : Nat) (hl : l.maxLvl ∈ definedLvls) :
    (logger.write l msg LvlCrit ctx now).isSome = true ∧
    (∀ x ∈ definedLvls,
      (logger.write (logger.SetLevel l x) msg LvlCrit ctx now).isSome = true) := by
  simp only [definedLvls, List.mem_cons, List.not_mem_nil, or_false] at hl
  have hge : LvlCrit ≤ l.maxLvl := by
    rcases hl with h | h | h | h | h <;> rw [h] <;> decide
  constructor
  · unfold logger.write
    rw [if_pos hge]
    rfl
  · intro x hx
    simp only [definedLvls, List.mem_cons, List.not_mem_nil, or_false] at hx
    have hge2 : LvlCrit ≤ x := by
      rcases hx with h | h | h | h | h <;> rw [h] <;> decide
    unfold logger.write logger.SetLevel
    rw [if_pos hge2]
    rfl

theorem C10_crit_never_filtered_witness :
    (logger.write { maxLvl := LvlError, ctx := [], h := 0 } "m" LvlCrit [] 0).isSome
      = true :=
  (C10_crit_never_filtered { maxLvl := LvlError, ctx := [], h := 0 } "m" [] 0
    (by decide)).1

end Log15
